import Mathlib

/-!
Verification of the flight-search-engine repository: a shallow embedding of
the Amadeus gateway client (`src/lib/api/amadeus.ts`), the flight
filtering/sorting utilities (`src/lib/utils/flight-utils.ts`), and the two
API route handlers (flights search and airport autocomplete), together with
theorems settling the specification claims.

Conventions of the embedding:
* JS numbers that hold prices or comparator values are modelled as `ℚ`;
  counters and lengths as `ℕ`; millisecond timestamps as `ℤ`.
* JS `Map` objects are association lists; `Map.set` replaces in place.
* Fallible JS code (`throw`/`catch`) is modelled with `Except String`.
* Functions are translated from the TypeScript source; the few places where
  a JS builtin (`Date`, regex search) is modelled rather than translated
  carry a doc comment saying exactly what is modelled.
-/

namespace FlightSearch

/-! ### Character and digit utilities -/

/-- Numeric value of a list of decimal digit characters, as computed by the
JS `parseInt` on a digit-only prefix (most significant first). -/
def digitsToNat (ds : List Char) : ℕ :=
  ds.foldl (fun a c => a * 10 + (c.toNat - 48)) 0

/-- Model of the JS `String.prototype.toLowerCase` on one character,
restricted to ASCII (the inputs of interest are IATA codes and airport
names; the source relies on Unicode lowercasing only on ASCII data). -/
def lowerChar (c : Char) : Char :=
  if 'A' ≤ c ∧ c ≤ 'Z' then Char.ofNat (c.toNat + 32) else c

/-- Lowercase a string, character-wise (JS `toLowerCase`, ASCII fragment). -/
def toLowerList (s : List Char) : List Char :=
  s.map lowerChar

/-- JS `haystack.includes(needle)` on character lists: `needle` occurs as a
contiguous substring of the second argument. -/
def includesSub (needle : List Char) : List Char → Bool
  | [] => needle.isEmpty
  | c :: t => needle.isPrefixOf (c :: t) || includesSub needle t

/-! ### Duration parsing (`flight-utils.ts`, `durationToMinutes`)

The source matches the unanchored regex `/PT(\d+H)?(\d+M)?/` and reads the
two groups with `parseInt`.  The embedding finds the leftmost literal `PT`,
then greedily reads an optional `\d+H` group and an optional `\d+M` group at
that position, exactly as the backtracking regex does. -/

/-- Suffix following the leftmost occurrence of the literal `PT`, or `none`
when the regex `/PT(\d+H)?(\d+M)?/` has no match at all. -/
def afterPT : List Char → Option (List Char)
  | [] => none
  | c :: rest =>
    if c = 'P' then
      match rest with
      | 'T' :: tl => some tl
      | _ => afterPT rest
    else afterPT rest

/-- Parse an ISO-8601-subset duration string to minutes
(`"PT10H30M" ↦ 630`); translated from `durationToMinutes`. -/
def durationToMinutes (duration : String) : ℕ :=
  match afterPT duration.data with
  | none => 0
  | some rest =>
    let hspan := rest.span Char.isDigit
    let hgroup : ℕ × List Char :=
      match hspan.2 with
      | 'H' :: tl => if hspan.1.isEmpty then (0, rest) else (digitsToNat hspan.1, tl)
      | _ => (0, rest)
    let mspan := hgroup.2.span Char.isDigit
    let minutes : ℕ :=
      match mspan.2 with
      | 'M' :: _ => if mspan.1.isEmpty then 0 else digitsToNat mspan.1
      | _ => 0
    hgroup.1 * 60 + minutes

/-! ### Hour extraction (`flight-utils.ts`, `extractHour`) -/

/-- Scan for the `T` separator and read the two-digit hour after it. -/
def extractHourGo : List Char → Option ℕ
  | [] => none
  | c :: rest =>
    if c = 'T' then
      match rest with
      | d1 :: d2 :: _ =>
        if d1.isDigit && d2.isDigit then
          let h := (d1.toNat - 48) * 10 + (d2.toNat - 48)
          if h < 24 then some h else none
        else none
      | _ => none
    else extractHourGo rest

/-- Model of `extractHour`, which in the source is
`new Date(isoDateTime).getHours()`: for a well-formed ISO local datetime the
JS builtin returns the hour component (0–23); for an invalid datetime it
returns `NaN`, modelled here as `none` (every numeric comparison against
`NaN` is false, and the call sites below treat `none` accordingly). -/
def extractHour (isoDateTime : String) : Option ℕ :=
  extractHourGo isoDateTime.data

/-- Order-preserving model of `new Date(iso).getTime()` on well-formed ISO
timestamp strings: the concatenated decimal digits of the string, read as a
number.  For two timestamps in the same `YYYY-MM-DDTHH:MM:SS` shape this is
order-isomorphic to the JS epoch value. -/
def dateValue (s : String) : ℤ :=
  ((s.data.filter Char.isDigit).foldl (fun a c => a * 10 + (c.toNat - 48)) 0 : ℕ)

/-! ### Flight data model (`lib/types/flight.ts`)

Only the fields read by the embedded operations are carried. -/

/-- Departure/arrival endpoint of a `ProcessedFlight`. -/
structure FlightPoint where
  airport : String
  time : String
  deriving DecidableEq

/-- One leg of the journey; the filtering/sorting code reads only its
`duration` string. -/
structure FlightSegment where
  duration : String
  deriving DecidableEq

/-- Internal canonical flight shape (`ProcessedFlight`). -/
structure ProcessedFlight where
  id : String
  departure : FlightPoint
  arrival : FlightPoint
  duration : String
  stops : ℕ
  airlines : List String
  price : ℚ
  cabin : String
  segments : List FlightSegment
  deriving DecidableEq

/-- Hour-of-day range (source field names `start`/`end`; `end` is a Lean
keyword, rendered `stop`). -/
structure TimeRange where
  start : ℕ
  stop : ℕ
  deriving DecidableEq

/-- `Partial<FilterState>` as consumed by `applyFilters`: every field is
optional (`undefined` ↦ `none`).  The `sortBy`/`sortOrder` fields of the
source interface are not read by `applyFilters` and are omitted. -/
structure FilterState where
  minPrice : Option ℚ := none
  maxPrice : Option ℚ := none
  selectedAirlines : Option (List String) := none
  departureTimeRange : Option TimeRange := none
  arrivalTimeRange : Option TimeRange := none
  maxStops : Option ℕ := none
  maxDuration : Option ℕ := none
  cabins : Option (List String) := none
  deriving DecidableEq

/-! ### Filters (`flight-utils.ts`) -/

/-- Translated from `filterByPrice`. -/
def filterByPrice (flights : List ProcessedFlight) (minPrice maxPrice : ℚ) :
    List ProcessedFlight :=
  flights.filter fun flight => minPrice ≤ flight.price && flight.price ≤ maxPrice

/-- Translated from `filterByStops`. -/
def filterByStops (flights : List ProcessedFlight) (maxStops : ℕ) :
    List ProcessedFlight :=
  flights.filter fun flight => flight.stops ≤ maxStops

/-- Translated from `filterByAirlines`. -/
def filterByAirlines (flights : List ProcessedFlight) (airlines : List String) :
    List ProcessedFlight :=
  if airlines.isEmpty then flights
  else flights.filter fun flight =>
    flight.airlines.any fun airline => airlines.contains airline

/-- Translated from `filterByDepartureTime`; the `none` hour (JS `NaN`)
fails both comparisons, as NaN comparisons do. -/
def filterByDepartureTime (flights : List ProcessedFlight)
    (startHour endHour : ℕ) : List ProcessedFlight :=
  flights.filter fun flight =>
    match extractHour flight.departure.time with
    | none => false
    | some hour =>
      if startHour ≤ endHour then startHour ≤ hour && hour < endHour
      else startHour ≤ hour || hour < endHour

/-- Translated from `filterByArrivalTime`. -/
def filterByArrivalTime (flights : List ProcessedFlight)
    (startHour endHour : ℕ) : List ProcessedFlight :=
  flights.filter fun flight =>
    match extractHour flight.arrival.time with
    | none => false
    | some hour =>
      if startHour ≤ endHour then startHour ≤ hour && hour < endHour
      else startHour ≤ hour || hour < endHour

/-- Translated from `filterByCabin`. -/
def filterByCabin (flights : List ProcessedFlight) (cabins : List String) :
    List ProcessedFlight :=
  if cabins.isEmpty then flights
  else flights.filter fun flight => cabins.contains flight.cabin

/-- The duration string the source reads for a flight:
`flight.segments[0]?.duration || "PT0M"` (the `||` also replaces an empty,
hence falsy, string). -/
def firstSegmentDuration (flight : ProcessedFlight) : String :=
  match flight.segments with
  | [] => "PT0M"
  | s :: _ => if s.duration = "" then "PT0M" else s.duration

/-- Translated from `filterByDuration`: note it parses the duration of the
first segment only, not the flight's total `duration` field. -/
def filterByDuration (flights : List ProcessedFlight) (maxDuration : ℕ) :
    List ProcessedFlight :=
  flights.filter fun flight =>
    durationToMinutes (firstSegmentDuration flight) ≤ maxDuration

/-- Translated from `applyFilters`: each filter is applied only when the
corresponding field of the partial filter state is defined, in the source's
order; airline and cabin branches additionally require a nonempty list. -/
def applyFilters (flights : List ProcessedFlight) (filters : FilterState) :
    List ProcessedFlight :=
  let f1 :=
    match filters.minPrice, filters.maxPrice with
    | some lo, some hi => filterByPrice flights lo hi
    | _, _ => flights
  let f2 :=
    match filters.maxStops with
    | some s => filterByStops f1 s
    | none => f1
  let f3 :=
    match filters.selectedAirlines with
    | some airlines => if airlines.isEmpty then f2 else filterByAirlines f2 airlines
    | none => f2
  let f4 :=
    match filters.departureTimeRange with
    | some r => filterByDepartureTime f3 r.start r.stop
    | none => f3
  let f5 :=
    match filters.arrivalTimeRange with
    | some r => filterByArrivalTime f4 r.start r.stop
    | none => f4
  let f6 :=
    match filters.maxDuration with
    | some d => filterByDuration f5 d
    | none => f5
  match filters.cabins with
  | some cabins => if cabins.isEmpty then f6 else filterByCabin f6 cabins
  | none => f6

/-! ### Sorting (`flight-utils.ts`, `sortFlights`)

The source copies the input and calls the engine's stable `Array.sort` with
a numeric comparator whose sign is multiplied by −1 for descending order.
The stable comparison sort is embedded as an insertion sort that inserts
each element before the first element it compares `≤ 0` against, which
preserves the relative order of comparator-equal elements. -/

/-- Sort keys of `sortFlights`. -/
inductive SortKey
  | price
  | duration
  | departure
  | arrival
  | stops
  deriving DecidableEq

/-- Sort directions of `sortFlights`. -/
inductive SortOrder
  | asc
  | desc
  deriving DecidableEq

/-- The `switch (sortBy)` comparator body of `sortFlights`, before the
direction factor is applied. -/
def sortCmp (sortBy : SortKey) (a b : ProcessedFlight) : ℚ :=
  match sortBy with
  | .price => a.price - b.price
  | .duration =>
    (durationToMinutes (firstSegmentDuration a) : ℚ) -
      (durationToMinutes (firstSegmentDuration b) : ℚ)
  | .departure => ((dateValue a.departure.time : ℚ) - (dateValue b.departure.time : ℚ))
  | .arrival => ((dateValue a.arrival.time : ℚ) - (dateValue b.arrival.time : ℚ))
  | .stops => (a.stops : ℚ) - (b.stops : ℚ)

/-- The direction factor: `order === "asc" ? 1 : -1`. -/
def sortFactor (order : SortOrder) : ℚ :=
  match order with
  | .asc => 1
  | .desc => -1

/-- Insert `a` into a list, before the first element `b` with `le a b`. -/
def orderedInsertBy (le : α → α → Bool) (a : α) : List α → List α
  | [] => [a]
  | b :: l => if le a b then a :: b :: l else b :: orderedInsertBy le a l

/-- Stable insertion sort with a boolean "comes not after" test. -/
def insertionSortBy (le : α → α → Bool) : List α → List α
  | [] => []
  | a :: l => orderedInsertBy le a (insertionSortBy le l)

/-- Translated from `sortFlights`: stable comparison sort by
`(comparator value) * factor ≤ 0`. -/
def sortFlights (flights : List ProcessedFlight) (sortBy : SortKey)
    (order : SortOrder) : List ProcessedFlight :=
  insertionSortBy
    (fun a b => decide (sortCmp sortBy a b * sortFactor order ≤ 0)) flights

/-! ### Fuzzy matching (airports route, `fuzzyScore` / `levenshteinDistance`)

The source builds the full `(|s2|+1) × (|s1|+1)` dynamic-programming matrix
row by row; the embedding computes the same rows, carrying the previous row
and the current row's last value. -/

/-- One pass of the Levenshtein matrix row `i`, over the columns of `s1`:
`diag` is `matrix[i-1][j-1]`, `left` is `matrix[i][j-1]`, and `ups` holds
`matrix[i-1][j], matrix[i-1][j+1], …`. -/
def levRowGo (c2 : Char) : List Char → ℕ → ℕ → List ℕ → List ℕ
  | [], _, _, _ => []
  | c :: cs, diag, left, ups =>
    let up := ups.headD 0
    let cur := if c2 = c then diag else min (diag + 1) (min (left + 1) (up + 1))
    cur :: levRowGo c2 cs up cur ups.tail

/-- Fold the rows of the matrix over the characters of `s2`; `i` is the
index of the previously completed row. -/
def levRows (s1 : List Char) : List Char → ℕ → List ℕ → List ℕ
  | [], _, prev => prev
  | c2 :: rest, i, prev =>
    let row := (i + 1) :: levRowGo c2 s1 (prev.headD 0) (i + 1) prev.tail
    levRows s1 rest (i + 1) row

/-- Translated from `levenshteinDistance`: the matrix entry
`matrix[s2.length][s1.length]`, the last element of the final row. -/
def levenshteinDistance (s1 s2 : List Char) : ℕ :=
  (levRows s1 s2 0 (List.range (s1.length + 1))).getLastD 0

/-- Translated from `fuzzyScore` (scores in `ℚ` in place of JS floats):
exact match 1, prefix match 0.9, substring match 0.7, otherwise normalized
Levenshtein similarity capped at 0.5 and floored at 0; both strings are
lowercased first. -/
def fuzzyScore (needle haystack : String) : ℚ :=
  let n := toLowerList needle.data
  let h := toLowerList haystack.data
  if n = h then 1
  else if n.isPrefixOf h then 9 / 10
  else if includesSub n h then 7 / 10
  else
    let maxLen : ℚ := max n.length h.length
    let distance : ℚ := levenshteinDistance n h
    let similarity := 1 - distance / maxLen
    max 0 (similarity * (1 / 2))

/-! ### Gateway client state (`amadeus.ts`) -/

/-- Configuration constant `TOKEN_BUFFER` (ms). -/
def TOKEN_BUFFER : ℤ := 60000

/-- Configuration constant `CACHE_TTL` (ms). -/
def CACHE_TTL : ℤ := 5 * 60 * 1000

/-- Configuration constant `RATE_LIMIT` (requests per window). -/
def RATE_LIMIT : ℕ := 30

/-- Configuration constant `RATE_LIMIT_WINDOW` (ms). -/
def RATE_LIMIT_WINDOW : ℤ := 60 * 1000

/-- Configuration constant `MAX_RETRIES`. -/
def MAX_RETRIES : ℕ := 3

/-- Entry of the per-key rate-limit map. -/
structure RateLimitInfo where
  requestCount : ℕ
  resetTime : ℤ
  deriving DecidableEq

/-- Cached bearer token. -/
structure CachedToken where
  token : String
  expiresAt : ℤ
  deriving DecidableEq

/-- One entry of the Amadeus error envelope's `errors` array; only the
`detail` field is read by `formatError`. -/
structure ErrItem where
  detail : Option String
  deriving DecidableEq

/-- Airport record of the reference-data payload (`address` optional). -/
structure AirportAddress where
  cityName : String
  countryCode : String
  deriving DecidableEq

/-- Raw airport entry as returned in a reference-data response. -/
structure AirportRec where
  iataCode : String
  name : String
  address : Option AirportAddress
  deriving DecidableEq

/-- Parsed JSON body of an upstream response, restricted to the parts the
client reads: the Amadeus error envelope (`errors`/`title`/`message`, an
absent or falsy field is `none`) and the `data` array of airport records
(unused for flight payloads). -/
structure RespBody where
  errors : Option (List ErrItem) := none
  title : Option String := none
  message : Option String := none
  data : List AirportRec := []
  deriving DecidableEq

/-- Normalized airport shape (`Airport` in `lib/types/flight.ts`). -/
structure Airport where
  iataCode : String
  name : String
  city : String
  countryCode : String
  deriving DecidableEq

/-- JS `Map.get` on an association list. -/
def mapGet (k : String) : List (String × α) → Option α
  | [] => none
  | (k', v) :: rest => if k' = k then some v else mapGet k rest

/-- JS `Map.set` on an association list: replace in place or append. -/
def mapSet (k : String) (v : α) : List (String × α) → List (String × α)
  | [] => [(k, v)]
  | (k', v') :: rest => if k' = k then (k, v) :: rest else (k', v') :: mapSet k v rest

/-- Entry of the request cache. -/
structure CacheEntry where
  data : RespBody
  timestamp : ℤ
  deriving DecidableEq

/-- Mutable instance state of `AmadeusClient`. -/
structure ClientState where
  cachedToken : Option CachedToken := none
  rateLimitMap : List (String × RateLimitInfo) := []
  requestCache : List (String × CacheEntry) := []
  deriving DecidableEq

/-! ### Rate limiter (`checkRateLimit`) -/

/-- Translated from `checkRateLimit`.  `limit` and `window` model the
instance configuration fields `RATE_LIMIT` and `RATE_LIMIT_WINDOW`; `now`
models `Date.now()`.  The source mutates the map's stored object in place,
so a reset performed on an existing entry persists even when the call then
returns `false`; an entry synthesized for an absent key is stored only on
the success path (via `set`). -/
def checkRateLimit (limit : ℕ) (window : ℤ) (now : ℤ) (key : String)
    (m : List (String × RateLimitInfo)) : Bool × List (String × RateLimitInfo) :=
  let existing := mapGet key m
  let info0 := existing.getD ⟨0, now + window⟩
  let info1 := if now ≥ info0.resetTime then ⟨0, now + window⟩ else info0
  let m1 := if existing.isSome then mapSet key info1 m else m
  if info1.requestCount ≥ limit then (false, m1)
  else (true, mapSet key ⟨info1.requestCount + 1, info1.resetTime⟩ m1)

/-! ### Token manager (`getToken`) -/

/-- Possible outcomes of the credential-exchange `fetch` performed by
`getToken`: a transport failure, a non-ok response (with its status and the
`JSON.stringify` of its parsed error body), or an ok response carrying
`access_token` and `expires_in` (seconds). -/
inductive TokenOutcome
  | fetchFailure (msg : String)
  | failure (status : ℕ) (bodyText : String)
  | success (accessToken : String) (expiresIn : ℤ)
  deriving DecidableEq

/-- The credential-exchange `try` block of `getToken`: on success cache
`{token, expiresAt = now + expires_in · 1000}` and return the token; on a
non-ok response or transport failure throw the wrapped auth error. -/
def getTokenFetch (now : ℤ) (outcome : TokenOutcome) (st : ClientState) :
    Except String (String × ClientState) :=
  match outcome with
  | .success tok expIn =>
    .ok (tok, { st with cachedToken := some ⟨tok, now + expIn * 1000⟩ })
  | .failure status bodyText =>
    .error ("Amadeus auth error: Authentication failed: " ++
      toString status ++ " " ++ bodyText)
  | .fetchFailure msg =>
    .error ("Amadeus auth error: " ++ msg)

/-- Translated from `getToken`: the early return guarded by
`this.cachedToken && Date.now() < expiresAt − TOKEN_BUFFER`, followed by
the credential exchange (`getTokenFetch` above, the `try` block). -/
def getToken (now : ℤ) (outcome : TokenOutcome) (st : ClientState) :
    Except String (String × ClientState) :=
  match st.cachedToken with
  | some ct =>
    if now < ct.expiresAt - TOKEN_BUFFER then .ok (ct.token, st)
    else getTokenFetch now outcome st
  | none => getTokenFetch now outcome st

/-! ### Error formatting (`formatError`) -/

/-- Translated from `formatError`: first error entry's `detail`, else
`title`, else `message`, else the generic fallback.  A JS-falsy field
(absent or empty) is `none`. -/
def formatError (body : RespBody) : String :=
  let fromDetail : Option String :=
    match body.errors with
    | some (first :: _) => first.detail
    | _ => none
  match fromDetail with
  | some d => d
  | none =>
    match body.title with
    | some t => t
    | none =>
      match body.message with
      | some m => m
      | none => "An error occurred with the Amadeus API"

/-! ### Retrying request (`request`)

The attempt loop is driven by an environment `env : ℕ → AttemptOutcome`
giving the outcome of the `fetchWithTimeout` call of each attempt index. -/

/-- Outcome of one `fetchWithTimeout` call: a rejected promise (connection
error or timeout abort), or an HTTP response with its status and parsed
JSON body (`none` when the body is not valid JSON). -/
inductive AttemptOutcome
  | fetchFailure (msg : String)
  | response (status : ℕ) (body : Option RespBody)
  deriving DecidableEq

/-- Error raised by the `fetch` API when `response.json()` is called a
second time on a body that the error path already consumed. -/
def BODY_CONSUMED_ERROR : String := "TypeError: Body is unusable"

/-- Error raised when `response.json()` fails to parse an ok response. -/
def JSON_PARSE_ERROR : String := "SyntaxError: Unexpected token in JSON"

/-- Translated from the `for (let attempt = 0; attempt < retries; …)` loop
of `request`.  `remaining` is `retries − attempt`.  Notable source
behaviors preserved by the translation:
* the non-retryable-4xx `throw` happens inside the `try`, so it is caught
  by the `catch`, and a non-last attempt retries it anyway;
* on a non-ok retryable response, only a non-last attempt `continue`s; the
  last attempt falls through to `response.json()` on the already-consumed
  body, which rejects, and the `catch` then throws that rejection;
* an ok response's parsed body is cached under `cacheKey` and returned. -/
def attemptLoop (now : ℤ) (cacheKey : String) (env : ℕ → AttemptOutcome) :
    ℕ → ℕ → Option String → ClientState → Except String RespBody × ClientState
  | 0, _, lastError, st =>
    (.error (lastError.getD "Request failed after retries"), st)
  | remaining + 1, attempt, _lastError, st =>
    let isLast := remaining = 0
    match env attempt with
    | .fetchFailure msg =>
      if isLast then (.error msg, st)
      else attemptLoop now cacheKey env remaining (attempt + 1) (some msg) st
    | .response status body =>
      if 200 ≤ status ∧ status < 300 then
        match body with
        | some data =>
          (.ok data,
            { st with requestCache := mapSet cacheKey ⟨data, now⟩ st.requestCache })
        | none =>
          if isLast then (.error JSON_PARSE_ERROR, st)
          else attemptLoop now cacheKey env remaining (attempt + 1)
            (some JSON_PARSE_ERROR) st
      else
        let errorMessage := formatError (body.getD {})
        if status ≠ 429 ∧ status < 500 then
          if isLast then (.error errorMessage, st)
          else attemptLoop now cacheKey env remaining (attempt + 1)
            (some errorMessage) st
        else
          if isLast then (.error BODY_CONSUMED_ERROR, st)
          else attemptLoop now cacheKey env remaining (attempt + 1)
            (some errorMessage) st

/-- Error message thrown when the rate limiter rejects a call. -/
def RATE_LIMIT_ERROR : String :=
  "Rate limit exceeded. Please wait before making another request."

/-- Translated from `request`: cache lookup (`endpoint` +
`JSON.stringify(body || "")` signature, 5-minute TTL), then rate-limit
check, then token acquisition, then the retrying attempt loop.
`retriesOpt = 0` models an absent (or zero, hence falsy) `options.retries`,
defaulted to `MAX_RETRIES`. -/
def request (now : ℤ) (endpoint bodyJson : String) (tokenOutcome : TokenOutcome)
    (env : ℕ → AttemptOutcome) (retriesOpt : ℕ) (st : ClientState) :
    Except String RespBody × ClientState :=
  let cacheKey := endpoint ++ bodyJson
  let cachedFresh : Option RespBody :=
    match mapGet cacheKey st.requestCache with
    | some entry => if now - entry.timestamp < CACHE_TTL then some entry.data else none
    | none => none
  match cachedFresh with
  | some data => (.ok data, st)
  | none =>
    let rl := checkRateLimit RATE_LIMIT RATE_LIMIT_WINDOW now "global" st.rateLimitMap
    let st1 := { st with rateLimitMap := rl.2 }
    if rl.1 = false then (.error RATE_LIMIT_ERROR, st1)
    else
      match getToken now tokenOutcome st1 with
      | .error e => (.error e, st1)
      | .ok (_, st2) =>
        let retries := if retriesOpt = 0 then MAX_RETRIES else retriesOpt
        attemptLoop now cacheKey env retries 0 none st2

/-! ### Airport lookup (`getAirport`, `isValidAirport`) -/

/-- Translated from `getAirport`: perform the reference-data request; any
thrown error is caught and turned into `null`; an empty `data` array is
also `null`; otherwise the first record is normalized.  The `bodyJson`
component of the cache signature is `JSON.stringify("")`, i.e. `"\x22\x22"`,
since the GET request has no body. -/
def getAirport (now : ℤ) (iataCode : String) (tokenOutcome : TokenOutcome)
    (env : ℕ → AttemptOutcome) (st : ClientState) : Option Airport × ClientState :=
  let endpoint := "/v1/reference-data/locations?subType=AIRPORT&code=" ++ iataCode
  match request now endpoint "\"\"" tokenOutcome env 0 st with
  | (.error _, st') => (none, st')
  | (.ok body, st') =>
    match body.data with
    | [] => (none, st')
    | a :: _ =>
      (some
        { iataCode := a.iataCode
          name := a.name
          city := (a.address.map (·.cityName)).getD ""
          countryCode := (a.address.map (·.countryCode)).getD "" }, st')

/-- Translated from `isValidAirport`: `getAirport(code) !== null`. -/
def isValidAirport (now : ℤ) (iataCode : String) (tokenOutcome : TokenOutcome)
    (env : ℕ → AttemptOutcome) (st : ClientState) : Bool × ClientState :=
  let r := getAirport now iataCode tokenOutcome env st
  (r.1.isSome, r.2)

/-! ### Flights route (`GET /api/flights`): validation and response

Embeds `flightSearchSchema`, `parseSearchParams` and the `GET` handler of
the flights route.  Zod runs a string's checks in declaration order and
applies `.transform` only after all checks pass, so the uppercase-only
regex is tested against the raw query value. -/

/-- Model of JS `String.prototype.toUpperCase` on one character (ASCII
fragment, as for `lowerChar`). -/
def upperChar (c : Char) : Char :=
  if 'a' ≤ c ∧ c ≤ 'z' then Char.ofNat (c.toNat - 32) else c

/-- Uppercase a string character-wise (the zod `.transform`). -/
def toUpperStr (s : String) : String :=
  ⟨s.data.map upperChar⟩

/-- The `departure`/`arrival` field pipeline of `flightSearchSchema`:
`min(3)`, `max(3)`, regex `^[A-Z]{3}$`, then `toUpperCase`. -/
def validateCode (s : String) : Option String :=
  if s.length < 3 then none
  else if 3 < s.length then none
  else if s.data.all (fun c => 'A' ≤ c ∧ c ≤ 'Z') then some (toUpperStr s)
  else none

/-- The regex `^\d{4}-\d{2}-\d{2}$`. -/
def isDateFormat (s : String) : Bool :=
  match s.data with
  | [y1, y2, y3, y4, s1, m1, m2, s2, d1, d2] =>
    y1.isDigit && y2.isDigit && y3.isDigit && y4.isDigit &&
      s1 = '-' && m1.isDigit && m2.isDigit && s2 = '-' && d1.isDigit && d2.isDigit
  | _ => false

/-- Day-granularity ordinal of a `YYYY-MM-DD` string (its digits read as
one number): order-isomorphic to the `new Date(date) ≥ today` comparison
the zod `.refine` performs on format-valid dates. -/
def dateOrdinal (s : String) : ℕ :=
  digitsToNat (s.data.filter Char.isDigit)

/-- Model of JS `parseInt` on the query strings: value of the leading
decimal-digit run, `none` for `NaN`. -/
def parseIntJS (s : String) : Option ℕ :=
  let ds := (s.data.span Char.isDigit).1
  if ds.isEmpty then none else some (digitsToNat ds)

/-- Validated flight-search parameters (`FlightSearchInput` after
transforms); `max` is a Lean keyword, rendered `maxResults`. -/
structure ValidatedParams where
  departure : String
  arrival : String
  departDate : String
  adults : ℕ
  children : ℕ
  maxResults : ℕ
  deriving DecidableEq

/-- Translated from `flightSearchSchema.parse` on the route's raw data
(`returnDate` and `cabin` are commented out in the source and omitted):
`none` models a thrown `ZodError`.  `today` is the day ordinal of the
server date with hours zeroed. -/
def flightSearchSchemaParse (today : ℕ)
    (departure arrival departDate adults children maxStr : String) :
    Option ValidatedParams :=
  match validateCode departure, validateCode arrival with
  | some dep, some arr =>
    if isDateFormat departDate ∧ today ≤ dateOrdinal departDate then
      match parseIntJS adults, parseIntJS children, parseIntJS maxStr with
      | some a, some c, some m =>
        if 1 ≤ a ∧ a ≤ 9 ∧ c ≤ 8 ∧ 1 ≤ m ∧ m ≤ 250 then
          some ⟨dep, arr, departDate, a, c, m⟩
        else none
      | _, _, _ => none
    else none
  | _, _ => none

/-- Observable part of the flights route's JSON response: HTTP status and,
on success, `meta.searchParams` (the validated parameters). -/
structure FlightsResponse where
  status : ℕ
  searchParamsMeta : Option ValidatedParams
  deriving DecidableEq

/-- Translated from the flights route `GET` handler: extract raw query
values with their `|| default`s, validate, run the search, and map error
messages to statuses by substring as the source does.  `searchOutcome`
models the result of `client.searchFlights`. -/
def flightsGET (today : ℕ)
    (qDeparture qArrival qDepartDate qAdults qChildren qMax : Option String)
    (searchOutcome : Except String (List ProcessedFlight)) : FlightsResponse :=
  let departure := qDeparture.getD ""
  let arrival := qArrival.getD ""
  let departDate := qDepartDate.getD ""
  let adults := qAdults.getD "1"
  let children := qChildren.getD "0"
  let maxStr := qMax.getD "50"
  match flightSearchSchemaParse today departure arrival departDate adults children maxStr with
  | none => ⟨400, none⟩
  | some validated =>
    match searchOutcome with
    | .error msg =>
      if includesSub "Rate limit".data msg.data then ⟨429, none⟩
      else if includesSub "Authentication".data msg.data then ⟨401, none⟩
      else if includesSub "timeout".data msg.data then ⟨504, none⟩
      else ⟨400, none⟩
    | .ok _ => ⟨200, some validated⟩

/-! ### Derived driver and fixtures used by the claim theorems -/

/-- Run a sequence of `checkRateLimit` calls for one key at the given call
times, threading the rate-limit map, and collect the returned booleans. -/
def acquireSeq (limit : ℕ) (window : ℤ) (key : String) :
    List ℤ → List (String × RateLimitInfo) → List Bool
  | [], _ => []
  | t :: ts, m =>
    let r := checkRateLimit limit window t key m
    r.1 :: acquireSeq limit window key ts r.2

/-- Expected acquire answers when the stored count is `k`: `n` further
calls, each `true` exactly while the running count is below the limit. -/
def expectedAcquire (limit : ℕ) : ℕ → ℕ → List Bool
  | _, 0 => []
  | k, n + 1 => decide (k < limit) :: expectedAcquire limit (k + 1) n

/-- Two-segment flight whose first-segment duration (60 min) is far below
its total duration (`PT10H30M`, 630 min). -/
def twoSegFlight : ProcessedFlight :=
  { id := "f1"
    departure := ⟨"JFK", "2099-01-01T08:00:00"⟩
    arrival := ⟨"LHR", "2099-01-01T20:00:00"⟩
    duration := "PT10H30M"
    stops := 1
    airlines := ["AA"]
    price := 100
    cabin := "ECONOMY"
    segments := [⟨"PT1H"⟩, ⟨"PT9H"⟩] }

/-- A cached response body used by concrete cache-hit scenarios. -/
def cachedBody : RespBody := { title := some "cached" }

/-- Upstream error body with a `detail` entry, used by retry scenarios. -/
def boomBody : RespBody := { errors := some [⟨some "boom"⟩] }

/-! ## Helper lemmas -/

/-- The attempt loop never touches the rate-limit map (it only reads the
environment and writes the request cache). -/
theorem attemptLoop_rateLimitMap (now : ℤ) (cacheKey : String)
    (env : ℕ → AttemptOutcome) :
    ∀ (rem att : ℕ) (le : Option String) (st : ClientState),
      ((attemptLoop now cacheKey env rem att le st).2).rateLimitMap = st.rateLimitMap := by
  intro rem
  induction rem with
  | zero => intro att le st; rfl
  | succ n ih =>
    intro att le st
    unfold attemptLoop
    cases henv : env att with
    | fetchFailure msg =>
      simp only [henv]
      split
      · rfl
      · exact ih (att + 1) _ st
    | response status body =>
      simp only [henv]
      split
      · split
        · rfl
        · split
          · rfl
          · exact ih (att + 1) _ st
      · split
        · split
          · rfl
          · exact ih (att + 1) _ st
        · split
          · rfl
          · exact ih (att + 1) _ st

/-- A successful credential exchange changes at most the cached token. -/
theorem getTokenFetch_ok_state (now : ℤ) (outc : TokenOutcome) (st : ClientState)
    {tok : String} {st2 : ClientState}
    (h : getTokenFetch now outc st = .ok (tok, st2)) :
    st2.rateLimitMap = st.rateLimitMap ∧ st2.requestCache = st.requestCache := by
  cases outc with
  | success t e =>
    simp only [getTokenFetch, Except.ok.injEq, Prod.mk.injEq] at h
    rw [← h.2]
    exact ⟨rfl, rfl⟩
  | failure s b => exact absurd h (by simp [getTokenFetch])
  | fetchFailure m => exact absurd h (by simp [getTokenFetch])

/-- A successful `getToken` changes at most the cached token. -/
theorem getToken_ok_state (now : ℤ) (outc : TokenOutcome) (st : ClientState)
    {tok : String} {st2 : ClientState}
    (h : getToken now outc st = .ok (tok, st2)) :
    st2.rateLimitMap = st.rateLimitMap ∧ st2.requestCache = st.requestCache := by
  unfold getToken at h
  rcases hct : st.cachedToken with _ | ct <;> rw [hct] at h
  · exact getTokenFetch_ok_state now outc st h
  · dsimp only at h
    by_cases hfr : now < ct.expiresAt - TOKEN_BUFFER
    · rw [if_pos hfr] at h
      cases h
      exact ⟨rfl, rfl⟩
    · rw [if_neg hfr] at h
      exact getTokenFetch_ok_state now outc st h

/-! ## Claim C3 -/

/-- C3: evaluation showing `filterByDuration` compares the bound against
the first segment's duration only, not the whole flight's duration: the
two-segment flight (first segment 60 min, total 630 min) is kept under a
120-minute bound although its total duration exceeds the bound. -/
theorem filterByDuration_first_segment_eval :
    filterByDuration [twoSegFlight] 120 = [twoSegFlight] ∧
    durationToMinutes twoSegFlight.duration = 630 ∧
    ¬ durationToMinutes twoSegFlight.duration ≤ 120 := by decide

/-! ## Claim C4 -/

/-- C4: with all attempts answering a retryable HTTP 500 whose body carries
the detail `"boom"`, the exhausted call does not fail with the formatted
upstream detail: the last attempt falls through the retry guard, re-reads
the already-consumed response body, and the call rejects with the body-reuse
error instead.  With pure transport failures the call does fail with the
last observed transport error. -/
theorem request_retry_exhaustion_eval :
    (request 0 "/flights" "\"\"" (.success "tok" 600)
        (fun _ => .response 500 (some boomBody)) 0 ⟨none, [], []⟩).1 =
      .error BODY_CONSUMED_ERROR ∧
    formatError boomBody = "boom" ∧
    BODY_CONSUMED_ERROR ≠ "boom" ∧
    (request 0 "/flights" "\"\"" (.success "tok" 600)
        (fun i => .fetchFailure ("transport " ++ toString i)) 0 ⟨none, [], []⟩).1 =
      .error "transport 2" :=
  ⟨by rfl, by rfl, by decide, by rfl⟩

/-! ## Claim C5 -/

/-- C5 (counterexample): a token fetched at `t0 = 0` with lifetime 600 s is
not reused at `t0 + 540` s — the call at exactly 540 000 ms already
refreshes (the guard `now < expiresAt − buffer` is strict), returning the
newly fetched token `"B"` rather than the cached `"A"`. -/
theorem getToken_boundary_cex :
    getToken 540000 (.success "B" 600) ⟨some ⟨"A", 600000⟩, [], []⟩ =
      .ok ("B", ⟨some ⟨"B", 1140000⟩, [], []⟩) ∧ "B" ≠ "A" :=
  ⟨by rfl, by decide⟩

/-- C5 (amended): for a token fetched at `t0` with reported lifetime 600 s
and `TOKEN_BUFFER` 60 s, every `getToken` call strictly before `t0 + 540` s
returns the cached token without a refresh, and every call at `t0 + 540` s
or later performs the credential exchange, caching the fresh token; the
fetch at `t0` itself caches expiry `t0 + 600` s. -/
theorem getToken_buffer_boundary (t0 : ℤ) (tok : String) (st : ClientState)
    (hcache : st.cachedToken = some ⟨tok, t0 + 600 * 1000⟩) :
    (∀ (now : ℤ) (outc : TokenOutcome), now < t0 + 540000 →
      getToken now outc st = .ok (tok, st)) ∧
    (∀ (now : ℤ) (tok2 : String) (life : ℤ), t0 + 540000 ≤ now →
      getToken now (.success tok2 life) st =
        .ok (tok2, { st with cachedToken := some ⟨tok2, now + life * 1000⟩ })) ∧
    (∀ st0 : ClientState, st0.cachedToken = none →
      getToken t0 (.success tok 600) st0 =
        .ok (tok, { st0 with cachedToken := some ⟨tok, t0 + 600 * 1000⟩ })) := by
  refine ⟨?_, ?_, ?_⟩
  · intro now outc h
    unfold getToken
    rw [hcache]
    dsimp only
    rw [if_pos (by simp only [TOKEN_BUFFER]; omega)]
  · intro now tok2 life h
    unfold getToken
    rw [hcache]
    dsimp only
    rw [if_neg (by simp only [TOKEN_BUFFER]; omega)]
    rfl
  · intro st0 h0
    unfold getToken
    rw [h0]
    rfl

/-- C5 (witness): the boundary theorem applied at `t0 = 0`, token `"A"`,
with a call at 100 ms (cached), a call at 540 000 ms (refresh to `"B"`),
and the initial fetch. -/
theorem getToken_buffer_boundary_witness :
    getToken 100 (.failure 500 "\x7b\x7d") ⟨some ⟨"A", 600000⟩, [], []⟩ =
      .ok ("A", ⟨some ⟨"A", 600000⟩, [], []⟩) ∧
    getToken 540000 (.success "B" 600) ⟨some ⟨"A", 600000⟩, [], []⟩ =
      .ok ("B", ⟨some ⟨"B", 1140000⟩, [], []⟩) ∧
    getToken 0 (.success "A" 600) ⟨none, [], []⟩ =
      .ok ("A", ⟨some ⟨"A", 600000⟩, [], []⟩) := by
  have h := getToken_buffer_boundary 0 "A" ⟨some ⟨"A", 600000⟩, [], []⟩ (by norm_num)
  refine ⟨h.1 100 _ (by norm_num), ?_, ?_⟩
  · have h2 := h.2.1 540000 "B" 600 (by norm_num)
    norm_num at h2
    exact h2
  · have h3 := h.2.2 ⟨none, [], []⟩ rfl
    norm_num at h3
    exact h3

/-! ## Claim C1 -/

/-- C1 (counterexample): a call answered from a fresh request-cache entry
returns before the rate limiter runs — the client state, including the
rate-limit map, is unchanged and the global counter is never created, so
the rate-limit counter is not incremented on every call attempt. -/
theorem request_cache_hit_skips_rate_limit_cex :
    request 10 "/e" "\"\"" (.success "tok" 600) (fun _ => .response 500 none) 0
        ⟨none, [], [("/e\"\"", ⟨cachedBody, 0⟩)]⟩ =
      (.ok cachedBody, ⟨none, [], [("/e\"\"", ⟨cachedBody, 0⟩)]⟩) ∧
    mapGet "global"
        (request 10 "/e" "\"\"" (.success "tok" 600) (fun _ => .response 500 none) 0
          ⟨none, [], [("/e\"\"", ⟨cachedBody, 0⟩)]⟩).2.rateLimitMap = none :=
  ⟨by rfl, by rfl⟩

/-- C1 (amended): within one logical `request` call the cache lookup
precedes the rate-limit check: a call answered by a fresh cache entry
returns the entry with the state unchanged (the rate limiter never sees
it), while on a cache miss or stale entry the rate limiter processes
exactly this one call — the resulting rate-limit map is the one produced by
`checkRateLimit` on the incoming map, and a rejection surfaces the
rate-limit error. -/
theorem request_gate_order (now : ℤ) (endpoint bodyJson : String)
    (tok : TokenOutcome) (env : ℕ → AttemptOutcome) (retriesOpt : ℕ)
    (st : ClientState) :
    (∀ entry, mapGet (endpoint ++ bodyJson) st.requestCache = some entry →
      now - entry.timestamp < CACHE_TTL →
      request now endpoint bodyJson tok env retriesOpt st = (.ok entry.data, st)) ∧
    ((∀ entry, mapGet (endpoint ++ bodyJson) st.requestCache = some entry →
        CACHE_TTL ≤ now - entry.timestamp) →
      (request now endpoint bodyJson tok env retriesOpt st).2.rateLimitMap =
        (checkRateLimit RATE_LIMIT RATE_LIMIT_WINDOW now "global" st.rateLimitMap).2 ∧
      ((checkRateLimit RATE_LIMIT RATE_LIMIT_WINDOW now "global" st.rateLimitMap).1 = false →
        (request now endpoint bodyJson tok env retriesOpt st).1 = .error RATE_LIMIT_ERROR)) := by
  constructor
  · intro entry he hf
    simp only [request]
    rw [he]
    dsimp only
    rw [if_pos hf]
  · intro hstale
    have hcf : (match mapGet (endpoint ++ bodyJson) st.requestCache with
        | some entry =>
          if now - entry.timestamp < CACHE_TTL then some entry.data else none
        | none => none) = (none : Option RespBody) := by
      rcases he : mapGet (endpoint ++ bodyJson) st.requestCache with _ | entry
      · rfl
      · dsimp only
        rw [if_neg (not_lt.mpr (hstale entry he))]
    simp only [request, hcf]
    by_cases hb :
        (checkRateLimit RATE_LIMIT RATE_LIMIT_WINDOW now "global" st.rateLimitMap).1 = false
    · rw [if_pos hb]
      exact ⟨rfl, fun _ => rfl⟩
    · rw [if_neg hb]
      rcases hgt : getToken now tok
          { st with rateLimitMap :=
              (checkRateLimit RATE_LIMIT RATE_LIMIT_WINDOW now "global" st.rateLimitMap).2 }
        with e | ⟨tk, st2⟩ <;> dsimp only
      · exact ⟨rfl, fun hc => absurd hc hb⟩
      · refine ⟨?_, fun hc => absurd hc hb⟩
        rw [attemptLoop_rateLimitMap]
        exact (getToken_ok_state now tok _ hgt).1

/-- C1 (witness): the gate-order theorem applied to a concrete cache-hit
call (state unchanged) and to a concrete cache-miss call against an
exhausted rate window (counter seen, rejection surfaced). -/
theorem request_gate_order_witness :
    request 10 "/e" "\"\"" (.success "tok" 600) (fun _ => .response 500 none) 0
        ⟨none, [], [("/e\"\"", ⟨cachedBody, 200⟩)]⟩ =
      (.ok cachedBody, ⟨none, [], [("/e\"\"", ⟨cachedBody, 200⟩)]⟩) ∧
    (request 0 "/e" "\"\"" (.success "tok" 600) (fun _ => .response 500 none) 0
        ⟨none, [("global", ⟨30, 60000⟩)], []⟩).2.rateLimitMap =
      (checkRateLimit RATE_LIMIT RATE_LIMIT_WINDOW 0 "global"
        [("global", ⟨30, 60000⟩)]).2 ∧
    (request 0 "/e" "\"\"" (.success "tok" 600) (fun _ => .response 500 none) 0
        ⟨none, [("global", ⟨30, 60000⟩)], []⟩).1 = .error RATE_LIMIT_ERROR := by
  have h1 := (request_gate_order 10 "/e" "\"\"" (.success "tok" 600)
    (fun _ => .response 500 none) 0 ⟨none, [], [("/e\"\"", ⟨cachedBody, 200⟩)]⟩).1
    ⟨cachedBody, 200⟩ (by rfl) (by norm_num [CACHE_TTL])
  have h2 := (request_gate_order 0 "/e" "\"\"" (.success "tok" 600)
    (fun _ => .response 500 none) 0 ⟨none, [("global", ⟨30, 60000⟩)], []⟩).2
    (fun entry h => Option.noConfusion h)
  exact ⟨h1, h2.1, h2.2 (by rfl)⟩

/-! ## Claim C10 -/

/-- C10: whenever the underlying `request` for the reference-data lookup
fails — for any reason: transport failure, timeout, rate-limit rejection,
or an error response — `getAirport` absorbs the error and returns the
absent result, and `isValidAirport` consequently returns `false`. -/
theorem getAirport_error_absorbed (now : ℤ) (code : String) (tok : TokenOutcome)
    (env : ℕ → AttemptOutcome) (st : ClientState) (e : String) (st2 : ClientState)
    (h : request now ("/v1/reference-data/locations?subType=AIRPORT&code=" ++ code)
        "\"\"" tok env 0 st = (.error e, st2)) :
    getAirport now code tok env st = (none, st2) ∧
    isValidAirport now code tok env st = (false, st2) := by
  have hga : getAirport now code tok env st = (none, st2) := by
    simp only [getAirport]
    rw [h]
  refine ⟨hga, ?_⟩
  simp only [isValidAirport]
  rw [hga]
  rfl

/-- C10 (witness): the absorption theorem applied to a concrete call that
is rejected by the rate limiter (window of 30 used up). -/
theorem getAirport_error_absorbed_witness :
    getAirport 0 "JFK" (.success "tok" 600) (fun _ => .response 200 (some cachedBody))
        ⟨none, [("global", ⟨30, 60000⟩)], []⟩ =
      (none, ⟨none, [("global", ⟨30, 60000⟩)], []⟩) ∧
    isValidAirport 0 "JFK" (.success "tok" 600) (fun _ => .response 200 (some cachedBody))
        ⟨none, [("global", ⟨30, 60000⟩)], []⟩ =
      (false, ⟨none, [("global", ⟨30, 60000⟩)], []⟩) :=
  getAirport_error_absorbed 0 "JFK" (.success "tok" 600)
    (fun _ => .response 200 (some cachedBody))
    ⟨none, [("global", ⟨30, 60000⟩)], []⟩ RATE_LIMIT_ERROR
    ⟨none, [("global", ⟨30, 60000⟩)], []⟩ (by rfl)

/-! ## Claim C2 -/

/-- C2 (counterexample): the request
`GET /flights?departure=JFK&arrival=lhr&departDate=2099-01-01&adults=2`
is rejected with a 400 validation failure — the lowercase arrival code is
not accepted, because the zod regex `^[A-Z]{3}$` runs before the
normalizing `toUpperCase` transform. -/
theorem flightsGET_lowercase_rejected_cex :
    flightsGET 20251012 (some "JFK") (some "lhr") (some "2099-01-01") (some "2")
      none none (.ok []) = ⟨400, none⟩ := by decide

/-- C2 (amended): for any server date not later than 2099-01-01, the
request with lowercase `arrival=lhr` fails validation with status 400
(the uppercase-only regex is checked before the normalizing transform),
while the same request with `arrival=LHR` succeeds: status 200 and
`meta.searchParams.arrival = "LHR"`. -/
theorem flightsGET_arrival_case (today : ℕ) (fs : List ProcessedFlight)
    (htoday : today ≤ 20990101) :
    (flightsGET today (some "JFK") (some "lhr") (some "2099-01-01") (some "2")
      none none (.ok fs)).status = 400 ∧
    flightsGET today (some "JFK") (some "LHR") (some "2099-01-01") (some "2")
      none none (.ok fs) =
      ⟨200, some ⟨"JFK", "LHR", "2099-01-01", 2, 0, 50⟩⟩ := by
  constructor
  · have hparse : flightSearchSchemaParse today "JFK" "lhr" "2099-01-01" "2" "0" "50" = none := by
      unfold flightSearchSchemaParse
      rw [show validateCode "lhr" = none from by decide,
        show validateCode "JFK" = some "JFK" from by decide]
    simp only [flightsGET, Option.getD]
    rw [hparse]
  · have hparse2 : flightSearchSchemaParse today "JFK" "LHR" "2099-01-01" "2" "0" "50" =
        some ⟨"JFK", "LHR", "2099-01-01", 2, 0, 50⟩ := by
      unfold flightSearchSchemaParse
      rw [show validateCode "JFK" = some "JFK" from by decide,
        show validateCode "LHR" = some "LHR" from by decide]
      dsimp only
      rw [if_pos ⟨by decide,
        by rw [show dateOrdinal "2099-01-01" = 20990101 from by decide]; exact htoday⟩]
      rw [show parseIntJS "2" = some 2 from by decide,
        show parseIntJS "0" = some 0 from by decide,
        show parseIntJS "50" = some 50 from by decide]
      dsimp only
      rw [if_pos (by decide)]
    simp only [flightsGET, Option.getD]
    rw [hparse2]

/-- C2 (witness): the amended theorem applied at server date 2025-10-12
with an empty search result. -/
theorem flightsGET_arrival_case_witness :
    (flightsGET 20251012 (some "JFK") (some "lhr") (some "2099-01-01") (some "2")
      none none (.ok [])).status = 400 ∧
    flightsGET 20251012 (some "JFK") (some "LHR") (some "2099-01-01") (some "2")
      none none (.ok []) =
      ⟨200, some ⟨"JFK", "LHR", "2099-01-01", 2, 0, 50⟩⟩ :=
  flightsGET_arrival_case 20251012 [] (by norm_num)

/-! ## Claim C6 -/

/-- Reading back the key just written. -/
theorem mapGet_mapSet_self (k : String) (v : α) :
    ∀ m : List (String × α), mapGet k (mapSet k v m) = some v := by
  intro m
  induction m with
  | nil => simp [mapGet, mapSet]
  | cons hd tl ih =>
    rcases hd with ⟨k2, v2⟩
    by_cases hk : k2 = k
    · subst hk
      simp [mapSet, mapGet]
    · simp only [mapSet]
      rw [if_neg hk]
      simp only [mapGet]
      rw [if_neg hk]
      exact ih

/-- Saturated expected answers are all `false`. -/
theorem expectedAcquire_sat (limit : ℕ) :
    ∀ (n k : ℕ), limit ≤ k → expectedAcquire limit k n = List.replicate n false := by
  intro n
  induction n with
  | zero => intro k _; rfl
  | succ m ih =>
    intro k h
    simp only [expectedAcquire, List.replicate]
    rw [decide_eq_false (Nat.not_lt.mpr h), ih (k + 1) (Nat.le_succ_of_le h)]

/-- Positional form of the expected answers. -/
theorem expectedAcquire_getElem (limit : ℕ) :
    ∀ (n k i : ℕ), i < n →
      (expectedAcquire limit k n)[i]? = some (decide (k + i < limit)) := by
  intro n
  induction n with
  | zero => intro k i h; omega
  | succ m ih =>
    intro k i h
    cases i with
    | zero => simp [expectedAcquire]
    | succ j =>
      simp only [expectedAcquire, List.getElem?_cons_succ]
      rw [ih (k + 1) j (by omega)]
      have : k + 1 + j = k + (j + 1) := by omega
      rw [this]

/-- One `checkRateLimit` step against a single-entry map inside the
window. -/
theorem checkRateLimit_within (limit : ℕ) (window now rt : ℤ) (key : String)
    (k : ℕ) (hnow : now < rt) :
    checkRateLimit limit window now key [(key, ⟨k, rt⟩)] =
      if k < limit then (true, [(key, ⟨k + 1, rt⟩)])
      else (false, [(key, ⟨k, rt⟩)]) := by
  unfold checkRateLimit
  rw [show mapGet key [(key, (⟨k, rt⟩ : RateLimitInfo))] = some ⟨k, rt⟩ from by
    simp [mapGet]]
  dsimp only [Option.getD, Option.isSome]
  rw [if_neg (not_le.mpr hnow), if_pos rfl]
  by_cases hk : k < limit
  · rw [if_pos hk, if_neg (Nat.not_le.mpr hk)]
    simp [mapSet]
  · rw [if_neg hk, if_pos (Nat.not_lt.mp hk)]
    simp [mapSet]

/-- First `checkRateLimit` call for an absent key. -/
theorem checkRateLimit_fresh (limit : ℕ) (window now : ℤ) (key : String)
    (hl : 0 < limit) (hw : 0 < window) :
    checkRateLimit limit window now key [] =
      (true, [(key, ⟨1, now + window⟩)]) := by
  unfold checkRateLimit
  simp only [mapGet, Option.getD, Option.isSome]
  rw [if_neg (not_le.mpr (by omega : now < now + window)),
    if_neg (by omega : ¬ 0 ≥ limit)]
  rfl

/-- The acquire sequence against a steady single-entry window. -/
theorem acquireSeq_steady (limit : ℕ) (window rt : ℤ) (key : String) :
    ∀ (ts : List ℤ) (k : ℕ), (∀ t2 ∈ ts, t2 < rt) →
      acquireSeq limit window key ts [(key, ⟨k, rt⟩)] =
        expectedAcquire limit k ts.length := by
  intro ts
  induction ts with
  | nil => intro k _; rfl
  | cons t2 ts ih =>
    intro k hts
    have hstep := checkRateLimit_within limit window t2 rt key k
      (hts t2 (List.mem_cons_self t2 ts))
    have htail : ∀ t3 ∈ ts, t3 < rt := fun t3 h3 => hts t3 (List.mem_cons_of_mem t2 h3)
    simp only [acquireSeq]
    by_cases hk : k < limit
    · rw [if_pos hk] at hstep
      rw [hstep]
      simp only [expectedAcquire, List.length_cons]
      rw [decide_eq_true hk, ih (k + 1) htail]
    · rw [if_neg hk] at hstep
      rw [hstep]
      simp only [expectedAcquire, List.length_cons]
      rw [decide_eq_false hk, ih k htail,
        expectedAcquire_sat limit ts.length k (Nat.not_lt.mp hk),
        expectedAcquire_sat limit ts.length (k + 1)
          (Nat.le_succ_of_le (Nat.not_lt.mp hk))]

/-- C6: for every key, with the configured quota and window: starting from
a fresh window opened by a call at time `t`, the `i`-th call of a sequence
whose times stay inside the window returns `true` exactly while `i` is
below the quota (so exactly the first `limit` calls succeed and every
further call in the window fails); and any call at a time at or past the
stored reset instant resets the window — it returns `true` and leaves the
entry with count 1 (the reset count 0 plus this call) and reset instant
`now + window`. -/
theorem checkRateLimit_spec :
    (∀ (limit : ℕ) (window : ℤ) (key : String) (t : ℤ) (ts : List ℤ),
      0 < limit → 0 < window → (∀ t2 ∈ ts, t2 < t + window) →
      ∀ i, i < ts.length + 1 →
        (acquireSeq limit window key (t :: ts) [])[i]? = some (decide (i < limit))) ∧
    (∀ (limit : ℕ) (window now rt : ℤ) (key : String)
        (m : List (String × RateLimitInfo)) (c : ℕ),
      0 < limit → mapGet key m = some ⟨c, rt⟩ → rt ≤ now →
      (checkRateLimit limit window now key m).1 = true ∧
      mapGet key (checkRateLimit limit window now key m).2 =
        some ⟨1, now + window⟩) := by
  constructor
  · intro limit window key t ts hl hw hts i hi
    simp only [acquireSeq]
    rw [checkRateLimit_fresh limit window t key hl hw]
    dsimp only
    rw [acquireSeq_steady limit window (t + window) key ts 1 hts]
    cases i with
    | zero =>
      simp only [List.getElem?_cons_zero]
      rw [decide_eq_true hl]
    | succ j =>
      simp only [List.getElem?_cons_succ]
      rw [expectedAcquire_getElem limit ts.length 1 j (by omega)]
      have : 1 + j = j + 1 := by omega
      rw [this]
  · intro limit window now rt key m c hl hm hge
    unfold checkRateLimit
    rw [hm]
    dsimp only [Option.getD, Option.isSome]
    rw [if_pos (le_of_le_of_eq hge rfl : now ≥ rt), if_pos rfl,
      if_neg (by omega : ¬ 0 ≥ limit)]
    exact ⟨rfl, mapGet_mapSet_self key (⟨1, now + window⟩ : RateLimitInfo) _⟩

/-- C6 (witness): quota 3, window 60 s — of four calls inside a fresh
window the third succeeds and the fourth fails; and a call past the reset
instant of an exhausted entry succeeds and re-arms the window. -/
theorem checkRateLimit_spec_witness :
    (acquireSeq 3 60000 "g" [0, 1, 2, 3] [])[2]? = some true ∧
    (acquireSeq 3 60000 "g" [0, 1, 2, 3] [])[3]? = some false ∧
    (checkRateLimit 3 60000 70000 "k" [("k", (⟨3, 60000⟩ : RateLimitInfo))]).1 = true ∧
    mapGet "k" (checkRateLimit 3 60000 70000 "k" [("k", (⟨3, 60000⟩ : RateLimitInfo))]).2 =
      some (⟨1, 130000⟩ : RateLimitInfo) := by
  have h2 := checkRateLimit_spec.1 3 60000 "g" 0 [1, 2, 3] (by decide) (by decide)
    (by decide) 2 (by decide)
  have h3 := checkRateLimit_spec.1 3 60000 "g" 0 [1, 2, 3] (by decide) (by decide)
    (by decide) 3 (by decide)
  have hr := checkRateLimit_spec.2 3 60000 70000 60000 "k"
    [("k", (⟨3, 60000⟩ : RateLimitInfo))] 3 (by decide) (by rfl) (by decide)
  refine ⟨by rw [h2]; rfl, by rw [h3]; rfl, hr.1, ?_⟩
  rw [hr.2]
  norm_num

/-! ## Claim C7 -/

/-- An hour extracted from a datetime string is always below 24 (the model
returns `none` in place of the JS `NaN` otherwise). -/
theorem extractHourGo_lt : ∀ (l : List Char) (h : ℕ), extractHourGo l = some h → h < 24 := by
  intro l
  induction l with
  | nil => intro h hh; cases hh
  | cons c rest ih =>
    intro h hh
    unfold extractHourGo at hh
    by_cases hc : c = 'T'
    · rw [if_pos hc] at hh
      rcases rest with _ | ⟨d1, _ | ⟨d2, rest3⟩⟩
      · cases hh
      · cases hh
      · dsimp only at hh
        by_cases hd : (d1.isDigit && d2.isDigit) = true
        · rw [if_pos hd] at hh
          by_cases h24 : (d1.toNat - 48) * 10 + (d2.toNat - 48) < 24
          · rw [if_pos h24] at hh
            cases hh
            exact h24
          · rw [if_neg h24] at hh
            cases hh
        · rw [if_neg hd] at hh
          cases hh
    · rw [if_neg hc] at hh
      exact ih h hh

/-- C7: `applyFilters` under the no-op filter state (both selection sets
empty, every bound maximal for the given list — price bound at least every
price, stops and duration bounds dominating, full `[0,24)` hour ranges) is
the identity, returning the same elements in the same order; and for every
filter state the result is a subsequence of the input in input order (the
embedding is a pure function, so the input list itself is never mutated). -/
theorem applyFilters_noop_pure :
    (∀ (flights : List ProcessedFlight) (pMax : ℚ) (sMax dMax : ℕ),
      (∀ f ∈ flights, 0 ≤ f.price ∧ f.price ≤ pMax ∧ f.stops ≤ sMax ∧
        durationToMinutes (firstSegmentDuration f) ≤ dMax ∧
        (extractHour f.departure.time).isSome = true ∧
        (extractHour f.arrival.time).isSome = true) →
      applyFilters flights
        { minPrice := some 0, maxPrice := some pMax, selectedAirlines := some [],
          departureTimeRange := some ⟨0, 24⟩, arrivalTimeRange := some ⟨0, 24⟩,
          maxStops := some sMax, maxDuration := some dMax, cabins := some [] } =
        flights) ∧
    (∀ (flights : List ProcessedFlight) (fs : FilterState),
      (applyFilters flights fs).Sublist flights) := by
  constructor
  · intro flights pMax sMax dMax hdom
    have e1 : filterByPrice flights 0 pMax = flights := by
      apply List.filter_eq_self.mpr
      intro f hf
      simp only [Bool.and_eq_true, decide_eq_true_eq]
      exact ⟨(hdom f hf).1, (hdom f hf).2.1⟩
    have e2 : filterByStops flights sMax = flights := by
      apply List.filter_eq_self.mpr
      intro f hf
      simp only [decide_eq_true_eq]
      exact (hdom f hf).2.2.1
    have e4 : filterByDepartureTime flights 0 24 = flights := by
      apply List.filter_eq_self.mpr
      intro f hf
      obtain ⟨hour, hh⟩ := Option.isSome_iff_exists.mp (hdom f hf).2.2.2.2.1
      simp only [hh]
      rw [if_pos (by omega : (0 : ℕ) ≤ 24)]
      simp only [Bool.and_eq_true, decide_eq_true_eq]
      exact ⟨Nat.zero_le hour, extractHourGo_lt _ hour hh⟩
    have e5 : filterByArrivalTime flights 0 24 = flights := by
      apply List.filter_eq_self.mpr
      intro f hf
      obtain ⟨hour, hh⟩ := Option.isSome_iff_exists.mp (hdom f hf).2.2.2.2.2
      simp only [hh]
      rw [if_pos (by omega : (0 : ℕ) ≤ 24)]
      simp only [Bool.and_eq_true, decide_eq_true_eq]
      exact ⟨Nat.zero_le hour, extractHourGo_lt _ hour hh⟩
    have e6 : filterByDuration flights dMax = flights := by
      apply List.filter_eq_self.mpr
      intro f hf
      simp only [decide_eq_true_eq]
      exact (hdom f hf).2.2.2.1
    simp only [applyFilters, List.isEmpty_nil, if_true]
    rw [e1, e2, e4, e5, e6]
  · intro flights fs
    have s1 : ∀ l : List ProcessedFlight,
        (match fs.minPrice, fs.maxPrice with
          | some lo, some hi => filterByPrice l lo hi
          | _, _ => l).Sublist l := by
      intro l
      rcases fs.minPrice with _ | lo <;> rcases fs.maxPrice with _ | hi <;>
        first
          | exact List.Sublist.refl l
          | exact List.filter_sublist l
    have s2 : ∀ l : List ProcessedFlight,
        (match fs.maxStops with
          | some s => filterByStops l s
          | none => l).Sublist l := by
      intro l
      rcases fs.maxStops with _ | s
      · exact List.Sublist.refl l
      · exact List.filter_sublist l
    have s3 : ∀ l : List ProcessedFlight,
        (match fs.selectedAirlines with
          | some airlines => if airlines.isEmpty then l else filterByAirlines l airlines
          | none => l).Sublist l := by
      intro l
      rcases fs.selectedAirlines with _ | airlines
      · exact List.Sublist.refl l
      · dsimp only
        split
        · exact List.Sublist.refl l
        · unfold filterByAirlines
          split
          · exact List.Sublist.refl l
          · exact List.filter_sublist l
    have s4 : ∀ l : List ProcessedFlight,
        (match fs.departureTimeRange with
          | some r => filterByDepartureTime l r.start r.stop
          | none => l).Sublist l := by
      intro l
      rcases fs.departureTimeRange with _ | r
      · exact List.Sublist.refl l
      · exact List.filter_sublist l
    have s5 : ∀ l : List ProcessedFlight,
        (match fs.arrivalTimeRange with
          | some r => filterByArrivalTime l r.start r.stop
          | none => l).Sublist l := by
      intro l
      rcases fs.arrivalTimeRange with _ | r
      · exact List.Sublist.refl l
      · exact List.filter_sublist l
    have s6 : ∀ l : List ProcessedFlight,
        (match fs.maxDuration with
          | some d => filterByDuration l d
          | none => l).Sublist l := by
      intro l
      rcases fs.maxDuration with _ | d
      · exact List.Sublist.refl l
      · exact List.filter_sublist l
    have s7 : ∀ l : List ProcessedFlight,
        (match fs.cabins with
          | some cabins => if cabins.isEmpty then l else filterByCabin l cabins
          | none => l).Sublist l := by
      intro l
      rcases fs.cabins with _ | cabins
      · exact List.Sublist.refl l
      · dsimp only
        split
        · exact List.Sublist.refl l
        · unfold filterByCabin
          split
          · exact List.Sublist.refl l
          · exact List.filter_sublist l
    simp only [applyFilters]
    exact (s7 _).trans ((s6 _).trans ((s5 _).trans ((s4 _).trans
      ((s3 _).trans ((s2 _).trans (s1 flights))))))

/-- C7 (witness): the no-op identity and the sublist property applied to a
concrete one-flight list with dominating bounds. -/
theorem applyFilters_noop_pure_witness :
    applyFilters [twoSegFlight]
      { minPrice := some 0, maxPrice := some 500, selectedAirlines := some [],
        departureTimeRange := some ⟨0, 24⟩, arrivalTimeRange := some ⟨0, 24⟩,
        maxStops := some 2, maxDuration := some 700, cabins := some [] } =
      [twoSegFlight] ∧
    (applyFilters [twoSegFlight] { maxStops := some 0 }).Sublist [twoSegFlight] :=
  ⟨applyFilters_noop_pure.1 [twoSegFlight] 500 2 700 (by decide),
   applyFilters_noop_pure.2 [twoSegFlight] { maxStops := some 0 }⟩

/-! ## Claim C8 -/

/-- Inserting permutes to consing. -/
theorem orderedInsertBy_perm (le : α → α → Bool) (a : α) :
    ∀ l : List α, (orderedInsertBy le a l).Perm (a :: l) := by
  intro l
  induction l with
  | nil => exact List.Perm.refl _
  | cons b t ih =>
    unfold orderedInsertBy
    split
    · exact List.Perm.refl _
    · exact (List.Perm.cons b ih).trans (List.Perm.swap a b t)

/-- The stable insertion sort is a permutation of its input. -/
theorem insertionSortBy_perm (le : α → α → Bool) :
    ∀ l : List α, (insertionSortBy le l).Perm l := by
  intro l
  induction l with
  | nil => exact List.Perm.refl _
  | cons a t ih =>
    exact (orderedInsertBy_perm le a _).trans (List.Perm.cons a ih)

/-- Membership in an insertion. -/
theorem mem_orderedInsertBy (le : α → α → Bool) (a x : α) (l : List α) :
    x ∈ orderedInsertBy le a l ↔ x ∈ a :: l :=
  (orderedInsertBy_perm le a l).mem_iff

/-- Insertion preserves sortedness for a total, transitive boolean
comparison. -/
theorem orderedInsertBy_pairwise (le : α → α → Bool)
    (htot : ∀ a b, le a b = true ∨ le b a = true)
    (htr : ∀ a b c, le a b = true → le b c = true → le a c = true) (a : α) :
    ∀ l : List α, l.Pairwise (fun x y => le x y = true) →
      (orderedInsertBy le a l).Pairwise (fun x y => le x y = true) := by
  intro l
  induction l with
  | nil => intro _; exact List.pairwise_singleton _ a
  | cons b t ih =>
    intro hp
    rcases List.pairwise_cons.mp hp with ⟨hb, ht⟩
    unfold orderedInsertBy
    by_cases hab : le a b = true
    · rw [if_pos hab]
      refine List.pairwise_cons.mpr ⟨?_, hp⟩
      intro x hx
      rcases List.mem_cons.mp hx with rfl | hxt
      · exact hab
      · exact htr a b x hab (hb x hxt)
    · rw [if_neg hab]
      refine List.pairwise_cons.mpr ⟨?_, ih ht⟩
      intro x hx
      rcases List.mem_cons.mp ((mem_orderedInsertBy le a x t).mp hx) with h | hxt
      · rw [h]
        exact (htot a b).resolve_left hab
      · exact hb x hxt

/-- The insertion sort is sorted for a total, transitive boolean
comparison. -/
theorem insertionSortBy_pairwise (le : α → α → Bool)
    (htot : ∀ a b, le a b = true ∨ le b a = true)
    (htr : ∀ a b c, le a b = true → le b c = true → le a c = true) :
    ∀ l : List α, (insertionSortBy le l).Pairwise (fun x y => le x y = true) := by
  intro l
  induction l with
  | nil => exact List.Pairwise.nil
  | cons a t ih => exact orderedInsertBy_pairwise le htot htr a _ ih

/-- Two strictly sorted permutations of each other are equal (uniqueness of
the sorted order for an asymmetric relation). -/
theorem pairwise_asymm_perm_eq {r : α → α → Prop}
    (hasym : ∀ a b, r a b → r b a → False) :
    ∀ (l₁ l₂ : List α), l₁.Perm l₂ → l₁.Pairwise r → l₂.Pairwise r → l₁ = l₂ := by
  intro l₁
  induction l₁ with
  | nil => intro l₂ hp _ _; exact (hp.symm.eq_nil).symm
  | cons a t₁ ih =>
    intro l₂ hp hp₁ hp₂
    rcases l₂ with _ | ⟨b, t₂⟩
    · exact (List.cons_ne_nil a t₁ hp.eq_nil).elim
    · by_cases hab : a = b
      · subst hab
        rw [ih t₂ hp.cons_inv (List.pairwise_cons.mp hp₁).2 (List.pairwise_cons.mp hp₂).2]
      · exfalso
        have hat2 : a ∈ t₂ := by
          rcases List.mem_cons.mp (hp.mem_iff.mp (List.mem_cons_self a t₁)) with h | h
          · exact absurd h hab
          · exact h
        have hbt1 : b ∈ t₁ := by
          rcases List.mem_cons.mp (hp.mem_iff.mpr (List.mem_cons_self b t₂)) with h | h
          · exact absurd h.symm hab
          · exact h
        exact hasym a b ((List.pairwise_cons.mp hp₁).1 b hbt1)
          ((List.pairwise_cons.mp hp₂).1 a hat2)

/-- Equality of mapped lists lifts back along pointwise injectivity. -/
theorem map_inj_eq {β : Type} {f : α → β} :
    ∀ (l₁ l₂ : List α), l₁.map f = l₂.map f →
      (∀ a ∈ l₁, ∀ b ∈ l₂, f a = f b → a = b) → l₁ = l₂ := by
  intro l₁
  induction l₁ with
  | nil =>
    intro l₂ hm _
    rcases l₂ with _ | ⟨b, t⟩
    · rfl
    · simp at hm
  | cons a t ih =>
    intro l₂ hm hinj
    rcases l₂ with _ | ⟨b, t₂⟩
    · simp at hm
    · simp only [List.map_cons, List.cons.injEq] at hm
      have hac : a = b :=
        hinj a (List.mem_cons_self a t) b (List.mem_cons_self b t₂) hm.1
      subst hac
      rw [ih t₂ hm.2
        (fun x hx y hy => hinj x (List.mem_cons_of_mem _ hx) y (List.mem_cons_of_mem _ hy))]

/-- C8: for a non-empty flight list with pairwise distinct prices, sorting
the ascending-by-price result again by price descending yields exactly the
reverse of the ascending order. -/
theorem sortFlights_price_desc_reverses (xs : List ProcessedFlight)
    (hne : xs ≠ []) (hnd : (xs.map (·.price)).Nodup) :
    sortFlights (sortFlights xs .price .asc) .price .desc =
      (sortFlights xs .price .asc).reverse := by
  clear hne
  have hA_iff : ∀ a b : ProcessedFlight,
      decide (sortCmp .price a b * sortFactor .asc ≤ 0) = true ↔ a.price ≤ b.price := by
    intro a b
    simp [sortCmp, sortFactor, sub_nonpos]
  have hD_iff : ∀ a b : ProcessedFlight,
      decide (sortCmp .price a b * sortFactor .desc ≤ 0) = true ↔ b.price ≤ a.price := by
    intro a b
    simp [sortCmp, sortFactor, mul_neg_one, neg_nonpos, sub_nonneg]
  have hys_perm : (sortFlights xs .price .asc).Perm xs := insertionSortBy_perm _ xs
  have hys_le : (sortFlights xs .price .asc).Pairwise (fun a b => a.price ≤ b.price) := by
    refine List.Pairwise.imp (fun h => (hA_iff _ _).mp h) ?_
    exact insertionSortBy_pairwise _
      (fun a b => by
        rcases le_total a.price b.price with h | h
        · exact Or.inl ((hA_iff a b).mpr h)
        · exact Or.inr ((hA_iff b a).mpr h))
      (fun a b c h1 h2 => (hA_iff a c).mpr (le_trans ((hA_iff a b).mp h1) ((hA_iff b c).mp h2)))
      xs
  have hnd_ys : ((sortFlights xs .price .asc).map (·.price)).Nodup :=
    ((hys_perm.map _).nodup_iff).mpr hnd
  have hys_lt : (sortFlights xs .price .asc).Pairwise (fun a b => a.price < b.price) :=
    List.Pairwise.imp₂ (fun _ _ h hne2 => lt_of_le_of_ne h hne2)
      hys_le (List.pairwise_map.mp hnd_ys)
  have hzs_perm : (sortFlights (sortFlights xs .price .asc) .price .desc).Perm
      (sortFlights xs .price .asc) := insertionSortBy_perm _ _
  have hzs_ge : (sortFlights (sortFlights xs .price .asc) .price .desc).Pairwise
      (fun a b => b.price ≤ a.price) := by
    refine List.Pairwise.imp (fun h => (hD_iff _ _).mp h) ?_
    exact insertionSortBy_pairwise _
      (fun a b => by
        rcases le_total a.price b.price with h | h
        · exact Or.inr ((hD_iff b a).mpr h)
        · exact Or.inl ((hD_iff a b).mpr h))
      (fun a b c h1 h2 => (hD_iff a c).mpr (le_trans ((hD_iff b c).mp h2) ((hD_iff a b).mp h1)))
      _
  have hnd_zs : ((sortFlights (sortFlights xs .price .asc) .price .desc).map (·.price)).Nodup :=
    ((hzs_perm.map _).nodup_iff).mpr hnd_ys
  have hzs_gt : (sortFlights (sortFlights xs .price .asc) .price .desc).Pairwise
      (fun a b => b.price < a.price) :=
    List.Pairwise.imp₂ (fun _ _ h hne2 => lt_of_le_of_ne h (Ne.symm hne2))
      hzs_ge (List.pairwise_map.mp hnd_zs)
  have hmap_eq : (sortFlights (sortFlights xs .price .asc) .price .desc).map (·.price) =
      ((sortFlights xs .price .asc).reverse).map (·.price) := by
    refine pairwise_asymm_perm_eq (r := fun x y : ℚ => y < x)
      (fun a b h1 h2 => absurd h2 (lt_asymm h1)) _ _ ?_ ?_ ?_
    · exact (hzs_perm.map _).trans (((sortFlights xs .price .asc).reverse_perm.map _).symm)
    · exact List.pairwise_map.mpr hzs_gt
    · exact List.pairwise_map.mpr (List.pairwise_reverse.mpr hys_lt)
  refine map_inj_eq _ _ hmap_eq ?_
  intro a ha b hb hfe
  exact List.inj_on_of_nodup_map hnd_ys (hzs_perm.mem_iff.mp ha) (List.mem_reverse.mp hb) hfe

/-- C8 (witness): the reversal theorem applied to a concrete three-flight
list with pairwise distinct prices. -/
theorem sortFlights_price_desc_reverses_witness :
    sortFlights (sortFlights
        [{ twoSegFlight with id := "a", price := 300 },
         { twoSegFlight with id := "b", price := 100 },
         { twoSegFlight with id := "c", price := 200 }] .price .asc) .price .desc =
      (sortFlights
        [{ twoSegFlight with id := "a", price := 300 },
         { twoSegFlight with id := "b", price := 100 },
         { twoSegFlight with id := "c", price := 200 }] .price .asc).reverse :=
  sortFlights_price_desc_reverses _ (by decide) (by decide)

/-! ## Claim C9 -/

/-- C9: the fuzzy score is 1 on an exact case-insensitive match, 0.9 when
the lowercased candidate starts with the lowercased query, 0.7 when it
contains it as a substring, and otherwise the normalized Levenshtein
similarity `1 − distance/max(len, len)` scaled by 0.5 and floored at 0; in
particular `score("JFK","JFK") ≥ score("JFK","JFKX") ≥ score("JFK","XYZ")`. -/
theorem fuzzyScore_spec :
    (∀ q c : String,
      (toLowerList q.data = toLowerList c.data → fuzzyScore q c = 1) ∧
      (toLowerList q.data ≠ toLowerList c.data →
        (toLowerList q.data).isPrefixOf (toLowerList c.data) = true →
        fuzzyScore q c = 9 / 10) ∧
      (toLowerList q.data ≠ toLowerList c.data →
        (toLowerList q.data).isPrefixOf (toLowerList c.data) = false →
        includesSub (toLowerList q.data) (toLowerList c.data) = true →
        fuzzyScore q c = 7 / 10) ∧
      (toLowerList q.data ≠ toLowerList c.data →
        (toLowerList q.data).isPrefixOf (toLowerList c.data) = false →
        includesSub (toLowerList q.data) (toLowerList c.data) = false →
        fuzzyScore q c =
          max 0 ((1 - (levenshteinDistance (toLowerList q.data) (toLowerList c.data) : ℚ) /
            (max ((toLowerList q.data).length : ℚ) ((toLowerList c.data).length : ℚ))) *
            (1 / 2)))) ∧
    fuzzyScore "JFK" "JFK" ≥ fuzzyScore "JFK" "JFKX" ∧
    fuzzyScore "JFK" "JFKX" ≥ fuzzyScore "JFK" "XYZ" := by
  have hvals : fuzzyScore "JFK" "JFK" = 1 ∧ fuzzyScore "JFK" "JFKX" = 9 / 10 ∧
      fuzzyScore "JFK" "XYZ" = 0 := by
    refine ⟨by norm_num [fuzzyScore], ?_, ?_⟩
    · norm_num [fuzzyScore, show toLowerList "JFK".data = "jfk".data from by decide,
        show toLowerList "JFKX".data = "jfkx".data from by decide]
    · norm_num +decide [fuzzyScore,
        show toLowerList "JFK".data = "jfk".data from by decide,
        show toLowerList "XYZ".data = "xyz".data from by decide,
        show levenshteinDistance "jfk".data "xyz".data = 3 from by decide]
  refine ⟨?_, ?_, ?_⟩
  · intro q c
    refine ⟨?_, ?_, ?_, ?_⟩
    · intro h1
      simp only [fuzzyScore]
      rw [if_pos h1]
    · intro h1 h2
      simp only [fuzzyScore]
      rw [if_neg h1, if_pos h2]
    · intro h1 h2 h3
      simp only [fuzzyScore]
      rw [if_neg h1, if_neg (by rw [h2]; exact Bool.false_ne_true), if_pos h3]
    · intro h1 h2 h3
      simp only [fuzzyScore]
      rw [if_neg h1, if_neg (by rw [h2]; exact Bool.false_ne_true),
        if_neg (by rw [h3]; exact Bool.false_ne_true)]
  · rw [hvals.1, hvals.2.1]
    norm_num
  · rw [hvals.2.1, hvals.2.2]
    norm_num

/-- C9 (witness): the case analysis applied to concrete pairs — exact
case-insensitive match, prefix match, substring match, and the Levenshtein
fallback. -/
theorem fuzzyScore_spec_witness :
    fuzzyScore "AB" "ab" = 1 ∧
    fuzzyScore "jf" "JFK" = 9 / 10 ∧
    fuzzyScore "fk" "JFK" = 7 / 10 ∧
    fuzzyScore "ab" "cd" =
      max 0 ((1 - (levenshteinDistance (toLowerList "ab".data) (toLowerList "cd".data) : ℚ) /
        (max ((toLowerList "ab".data).length : ℚ) ((toLowerList "cd".data).length : ℚ))) *
        (1 / 2)) :=
  ⟨(fuzzyScore_spec.1 "AB" "ab").1 (by decide),
   (fuzzyScore_spec.1 "jf" "JFK").2.1 (by decide) (by decide),
   (fuzzyScore_spec.1 "fk" "JFK").2.2.1 (by decide) (by decide) (by decide),
   (fuzzyScore_spec.1 "ab" "cd").2.2.2 (by decide) (by decide) (by decide)⟩

end FlightSearch
